import Mathlib

/-!
Verification of the node-elm-compiler core (`src/index.ts`).

The TypeScript source is shallowly embedded below.  JavaScript objects used as
option maps are modelled as ordered association lists `List (String × JSValue)`
(JS string-keyed objects preserve insertion order, which `_.defaults` and
`_.map` observe).  Thrown JS values are modelled by the `Thrown` type,
distinguishing thrown string primitives from thrown `Error` objects, because
`compilerErrorToString` treats them differently.  Fallible functions return
`Except Thrown _`.  A successful `runCompiler`/`compile` returns a `SpawnCall`
recording the path and argv handed to the bound spawn function; producing a
`SpawnCall` is the model of invoking spawn, so an `Except.error` result means
the spawn function was never invoked.
-/

set_option autoImplicit false

namespace NodeElmCompiler

/-- A JavaScript runtime value, restricted to the shapes that flow through the
option-processing code: `undefined`, `null`, booleans, numbers, strings,
arrays of strings (the `sources` and `runtimeOptions` payloads), plain objects
with string fields (the `processOpts` payload), and function values (the
spawn facility). -/
inductive JSValue where
  | undef
  | nullv
  | boolean (b : Bool)
  | num (n : Int)
  | str (s : String)
  | list (xs : List String)
  | obj (fields : List (String × String))
  | func
deriving DecidableEq

/-- JavaScript truthiness: `undefined`, `null`, `false`, `0` and `""` are
falsy; every array, object and function is truthy. -/
def truthy : JSValue → Bool
  | .undef => false
  | .nullv => false
  | .boolean b => b
  | .num n => n != 0
  | .str s => s ≠ ""
  | .list _ => true
  | .obj _ => true
  | .func => true

/-- The JavaScript `typeof` operator on the modelled values
(`typeof null` is `"object"`). -/
def typeofJS : JSValue → String
  | .undef => "undefined"
  | .nullv => "object"
  | .boolean _ => "boolean"
  | .num _ => "number"
  | .str _ => "string"
  | .list _ => "object"
  | .obj _ => "object"
  | .func => "function"

/-- JavaScript string coercion of the modelled values, as applied when a value
is placed into an argv slot. -/
def jsToString : JSValue → String
  | .undef => "undefined"
  | .nullv => "null"
  | .boolean b => if b then "true" else "false"
  | .num n => toString n
  | .str s => s
  | .list xs => String.intercalate "," xs
  | .obj _ => "[object Object]"
  | .func => "function"

/-- Property read `o[k]` on an object modelled as an ordered association
list; a missing property reads as `undefined`. -/
def jsLookup : List (String × JSValue) → String → JSValue
  | [], _ => .undef
  | p :: rest, k => if p.1 = k then p.2 else jsLookup rest k

/-- Whether the object has an own property named `k`. -/
def hasKey : List (String × JSValue) → String → Bool
  | [], _ => false
  | p :: rest, k => if p.1 = k then true else hasKey rest k

/-- Property assignment `o[k] = v`: an existing property is overwritten in
place (keeping its position), a new property is appended at the end, as JS
objects do. -/
def jsSet (o : List (String × JSValue)) (k : String) (v : JSValue) : List (String × JSValue) :=
  if hasKey o k then o.map (fun p => if p.1 = k then (k, v) else p) else o ++ [(k, v)]

/-- One step of lodash `_.defaults`: the source property `(k, v)` is copied
into `dest` only where `dest` has no own `k` or its value is `undefined`. -/
def setDefault (dest : List (String × JSValue)) (k : String) (v : JSValue) :
    List (String × JSValue) :=
  if hasKey dest k then
    if jsLookup dest k = JSValue.undef then
      dest.map (fun p => if p.1 = k then (k, v) else p)
    else dest
  else dest ++ [(k, v)]

/-- lodash `_.defaults dest src`: fold `setDefault` over the source object's
properties in order. -/
def applyDefaults (dest : List (String × JSValue)) (src : List (String × JSValue)) :
    List (String × JSValue) :=
  src.foldl (fun d p => setDefault d p.1 p.2) dest

/-- A thrown JavaScript value: the source throws both string primitives
(`throw "..."` in `prepareSources` and the `options.spawn` check) and `Error`
objects (`throw new Error(...)` in `compilerArgsFromOptions` and the catch
blocks of `compile`/`compileSync`). -/
inductive Thrown where
  | strVal (s : String)
  | errObj (message : String)
deriving DecidableEq

/-- `defaultOptions` from the source, in declaration order.  `spawn` holds the
imported spawn facility (a function value) and `verbose` defaults to `false`;
every other field defaults to `undefined`. -/
def defaultOptions : List (String × JSValue) :=
  [("spawn", JSValue.func),
   ("runtimeOptions", JSValue.undef),
   ("cwd", JSValue.undef),
   ("pathToElm", JSValue.undef),
   ("help", JSValue.undef),
   ("output", JSValue.undef),
   ("report", JSValue.undef),
   ("debug", JSValue.undef),
   ("verbose", JSValue.boolean false),
   ("processOpts", JSValue.undef),
   ("docs", JSValue.undef),
   ("optimize", JSValue.undef)]

/-- `supportedOptions = _.keys(defaultOptions)`. -/
def supportedOptions : List String := defaultOptions.map Prod.fst

/-- `prepareOptions(options, spawnFn) = _.defaults({spawn: spawnFn}, options,
defaultOptions)`. -/
def prepareOptions (options : List (String × JSValue)) (spawnFn : JSValue) :
    List (String × JSValue) :=
  applyDefaults (applyDefaults [("spawn", spawnFn)] options) defaultOptions

/-- The message of the `Error` thrown for the removed legacy `yes` option. -/
def yesOptionMessage : String :=
  "node-elm-compiler received the `yes` option, but that was removed in Elm 0.19. Try re-running without passing the `yes` option."

/-- The message of the `Error` thrown for the removed legacy `warn` option. -/
def warnOptionMessage : String :=
  "node-elm-compiler received the `warn` option, but that was removed in Elm 0.19. Try re-running without passing the `warn` option."

/-- The message of the `Error` thrown for the renamed legacy `pathToMake`
option. -/
def pathToMakeOptionMessage : String :=
  "node-elm-compiler received the `pathToMake` option, but that was renamed to `pathToElm` in Elm 0.19. Try re-running after renaming the parameter to `pathToElm`."

/-- The message of the `Error` thrown for any other unrecognized option. -/
def unrecognizedOptionMessage (opt : String) : String :=
  "node-elm-compiler was given an unrecognized Elm compiler option: " ++ opt

/-- The `_.concat(["+RTS"], value, ["-RTS"])` middle part: an array argument
is spliced element-wise, a scalar is inserted as a single element. -/
def rtsTokens : JSValue → List String
  | .list xs => xs
  | v => [jsToString v]

/-- The body of the callback `_.map(options, ...)` applies to one `(opt,
value)` property in `compilerArgsFromOptions`: flag tokens for a truthy
recognized option, `[]` for a falsy value or a recognized option with no flag
mapping, a thrown `Error` for a truthy unrecognized option.  (In the source
the `supportedOptions` membership test sits inside the switch's `default`
branch; every explicit `case` label is itself a member of `supportedOptions`,
so hoisting the membership test after the labelled cases is equivalent.) -/
def argsForOption (opt : String) (value : JSValue) : Except Thrown (List String) :=
  if truthy value then
    if opt = "help" then .ok ["--help"]
    else if opt = "output" then .ok ["--output", jsToString value]
    else if opt = "report" then .ok ["--report", jsToString value]
    else if opt = "debug" then .ok ["--debug"]
    else if opt = "docs" then .ok ["--docs", jsToString value]
    else if opt = "optimize" then .ok ["--optimize"]
    else if opt = "runtimeOptions" then .ok ("+RTS" :: (rtsTokens value ++ ["-RTS"]))
    else if opt ∈ supportedOptions then .ok []
    else if opt = "yes" then .error (.errObj yesOptionMessage)
    else if opt = "warn" then .error (.errObj warnOptionMessage)
    else if opt = "pathToMake" then .error (.errObj pathToMakeOptionMessage)
    else .error (.errObj (unrecognizedOptionMessage opt))
  else .ok []

/-- `compilerArgsFromOptions(options) = _.flatten(_.map(options, ...))`: the
per-property token lists are concatenated in property order; the first thrown
`Error` aborts the whole computation. -/
def compilerArgsFromOptions : List (String × JSValue) → Except Thrown (List String)
  | [] => .ok []
  | p :: rest =>
    match argsForOption p.1 p.2 with
    | .error e => .error e
    | .ok args =>
      match compilerArgsFromOptions rest with
      | .error e => .error e
      | .ok restArgs => .ok (args ++ restArgs)

/-- Whether `sources instanceof Array || typeof sources === "string"`. -/
def isValidSources : JSValue → Bool
  | .str _ => true
  | .list _ => true
  | _ => false

/-- `prepareSources`: throws (a string primitive) unless `sources` is an
array or a string; wraps a lone string into a one-element array. -/
def prepareSources (sources : JSValue) : Except Thrown (List String) :=
  match sources with
  | .str s => .ok [s]
  | .list xs => .ok xs
  | _ => .error (.strVal "compile() received neither an Array nor a String for its sources argument.")

/-- `prepareProcessArgs`: `["make"].concat(preparedSources ?
preparedSources.concat(compilerArgs) : compilerArgs)`.  `prepareSources`
always returns an array (or throws), and every array is truthy, so the
ternary always takes its first branch. -/
def prepareProcessArgs (sources : JSValue) (options : List (String × JSValue)) :
    Except Thrown (List String) :=
  match prepareSources sources with
  | .error e => .error e
  | .ok preparedSources =>
    match compilerArgsFromOptions options with
    | .error e => .error e
    | .ok compilerArgs => .ok ("make" :: (preparedSources ++ compilerArgs))

/-- The slice of `ProcessedOptions` (from the `./options` module) consumed by
the code under verification. -/
structure ProcessedOptions where
  pathToElm : String
deriving DecidableEq

/-- Modelled from the spec: `processOptions` lives in `./options`, a module of
this repository that is not under `src/`.  Per §4.1 (OptionsProcessor) it
"resolves the compiler executable path (explicit override, else a fixed
default name resolved via the host's executable search)"; the default binary
name is `elm`.  Only the resolved path is consumed by `runCompiler` and the
catch blocks of `compile`/`compileSync`. -/
def processOptions (options : List (String × JSValue)) : ProcessedOptions :=
  { pathToElm :=
      match jsLookup options "pathToElm" with
      | .str s => s
      | _ => "elm" }

/-- Whether `typeof v === "function"`. -/
def isCallable : JSValue → Bool
  | .func => true
  | _ => false

/-- A record of the spawn invocation `options.spawn(pathToElm, processArgs,
processedOptions.processOpts)`: producing one is the model of calling the
bound spawn function, so an error result means spawn was never called. -/
structure SpawnCall where
  path : String
  args : List String
deriving DecidableEq

/-- `runCompiler`: throws a string primitive if `options.spawn` is not a
function, otherwise builds the argv and invokes the spawn function.  (The
`verbose` trace line is a console side effect with no bearing on the result
and is not modelled.) -/
def runCompiler (sources : JSValue) (options : List (String × JSValue))
    (processedOptions : ProcessedOptions) : Except Thrown SpawnCall :=
  if isCallable (jsLookup options "spawn") then
    match prepareProcessArgs sources options with
    | .error e => .error e
    | .ok processArgs => .ok { path := processedOptions.pathToElm, args := processArgs }
  else
    .error (.strVal ("options.spawn was a(n) " ++ typeofJS (jsLookup options "spawn")
      ++ " instead of a function."))

/-- A digit of a two-digit lowercase hexadecimal escape. -/
def hexDigit (n : Nat) : Char :=
  if n < 10 then Char.ofNat (48 + n) else Char.ofNat (87 + n)

/-- JSON escaping of one character, as `JSON.stringify` performs on the
characters of a string. -/
def jsonEscapeChar (c : Char) : String :=
  if c = '"' then "\\\""
  else if c = '\\' then "\\\\"
  else if c = Char.ofNat 8 then "\\b"
  else if c = Char.ofNat 12 then "\\f"
  else if c = '\n' then "\\n"
  else if c = '\r' then "\\r"
  else if c = '\t' then "\\t"
  else if c.toNat < 32 then
    "\\u00" ++ String.singleton (hexDigit (c.toNat / 16)) ++ String.singleton (hexDigit (c.toNat % 16))
  else String.singleton c

/-- `JSON.stringify` applied to a string value. -/
def jsonStringify (s : String) : String :=
  "\"" ++ String.join (s.data.map jsonEscapeChar) ++ "\""

/-- A JavaScript value reaching `compilerErrorToString`: either a (non-null)
object carrying `code` and `message` properties and a string coercion, or a
primitive (the source throws string primitives) whose property reads are
`undefined`. -/
inductive JSErrValue where
  | objE (code : JSValue) (message : JSValue) (strRep : String)
  | primitive (strRep : String)
deriving DecidableEq

/-- The `err.code` property (`undefined` on a primitive). -/
def errCodeField : JSErrValue → JSValue
  | .primitive _ => .undef
  | .objE code _ _ => code

/-- The `err.message` property (`undefined` on a primitive). -/
def errMessageField : JSErrValue → JSValue
  | .primitive _ => .undef
  | .objE _ message _ => message

/-- The string coercion `"" + err`. -/
def errStringRep : JSErrValue → String
  | .objE _ _ r => r
  | .primitive r => r

/-- Whether `typeof v === "string"`. -/
def isStringValue : JSValue → Bool
  | .str _ => true
  | _ => false

/-- The string payload of a string value (coercion fallback otherwise). -/
def stringValueOf : JSValue → String
  | .str s => s
  | v => jsToString v

/-- `compilerErrorToString`, translated branch for branch from the source. -/
def compilerErrorToString (err : JSErrValue) (pathToElm : String) : String :=
  match err with
  | .objE code message strRep =>
    match code with
    | .str c =>
      if c = "ENOENT" then
        "Could not find Elm compiler \"" ++ pathToElm ++ "\". Is it installed?"
      else if c = "EACCES" then
        "Elm compiler \"" ++ pathToElm ++ "\" did not have permission to run. Do you need to give it executable permissions?"
      else
        "Error attempting to run Elm compiler \"" ++ pathToElm ++ "\":\n" ++ strRep
    | _ =>
      match message with
      | .str m => jsonStringify m
      | _ => "Exception thrown when attempting to run Elm compiler " ++ jsonStringify pathToElm
  | .primitive _ =>
    "Exception thrown when attempting to run Elm compiler " ++ jsonStringify pathToElm

/-- The error value a catch block observes for a modelled `Thrown`: a thrown
string is a primitive; a thrown `Error` object has a string `message`, no
`code`, and coerces to `"Error: " ++ message`. -/
def thrownToErr : Thrown → JSErrValue
  | .strVal s => .primitive s
  | .errObj m => .objE .undef (.str m) ("Error: " ++ m)

/-- `compile`: processes the options, binds the spawn function (`spawnFn`
stands for the imported `cross-spawn` module, a function value), runs the
compiler, and wraps any thrown value into a fresh `Error` whose message comes
from `compilerErrorToString`. -/
def compile (sources : JSValue) (options : List (String × JSValue)) (spawnFn : JSValue) :
    Except Thrown SpawnCall :=
  match runCompiler sources (prepareOptions options spawnFn) (processOptions options) with
  | .ok child => .ok child
  | .error err =>
    .error (.errObj (compilerErrorToString (thrownToErr err) (processOptions options).pathToElm))

/-- `compileSync` is `compile` with `spawn.sync` bound as the spawn function;
`spawn.sync` is a function value, so the two bodies coincide under the
model. -/
def compileSync (sources : JSValue) (options : List (String × JSValue)) :
    Except Thrown SpawnCall :=
  compile sources options JSValue.func

/-- The observable behaviour of one external compiler run: the exit code
delivered to the `close` listener, the stdout/stderr data chunks in the order
their `data` events fired (already interleaved), and the text found in the
temporary output file after the process exited. -/
structure ProcRun where
  exitCode : Int
  chunks : List String
  tempContents : String
deriving DecidableEq

/-- The `{ stdio: "pipe" }` object assigned to `options.processOpts`. -/
def pipedProcessOpts : JSValue := JSValue.obj [("stdio", "pipe")]

/-- `compileToString`: overwrites the caller's `options.output` with the
temporary file path and `options.processOpts` with piped stdio, compiles, and
on the `close` event rejects with `Error("Compilation failed\n" + output)`
for a non-zero exit code or resolves with the temporary file's text
otherwise.  The pair's second component is the caller's options object after
the call (the mutations are never undone).  The temporary-file path is the
abstract `tempPath`; `temp.open` and `fs.readFile` failures, which merely
re-reject with the foreign error, are outside the modelled runs. -/
def compileToString (sources : JSValue) (options : List (String × JSValue))
    (tempPath : String) (run : ProcRun) :
    Except Thrown String × List (String × JSValue) :=
  let options1 := jsSet (jsSet options "output" (JSValue.str tempPath)) "processOpts" pipedProcessOpts
  (match compile sources options1 JSValue.func with
   | .error e => .error e
   | .ok _ =>
     if run.exitCode ≠ 0 then
       .error (.errObj ("Compilation failed\n" ++ String.join run.chunks))
     else
       .ok run.tempContents,
   options1)

/-- `compileToStringSync`: overwrites the caller's `options.output` with the
temporary file path, runs `compileSync`, and reads the temporary file back —
without ever consulting the process exit code or its streams. -/
def compileToStringSync (sources : JSValue) (options : List (String × JSValue))
    (tempPath : String) (run : ProcRun) :
    Except Thrown String × List (String × JSValue) :=
  let options1 := jsSet options "output" (JSValue.str tempPath)
  (match compileSync sources options1 with
   | .error e => .error e
   | .ok _ => .ok run.tempContents,
   options1)

/-- The rejection message `compilerArgsFromOptions` produces for a truthy
unrecognized option named `opt` (legacy names get their specific migration
messages). -/
def rejectionMessage (opt : String) : String :=
  if opt = "yes" then yesOptionMessage
  else if opt = "warn" then warnOptionMessage
  else if opt = "pathToMake" then pathToMakeOptionMessage
  else unrecognizedOptionMessage opt

/-- Restatement of the error classifier following the words of the
specification (§4.4) and of the claim: an `ENOENT` code yields the
could-not-find message, an `EACCES` code the missing-permission message, any
other string code the "error attempting to run" message embedding the path
and the error, no string code but a string `message` field the stringified
message, and anything else the generic exception message embedding the
path. -/
def classifierSpec (err : JSErrValue) (pathToElm : String) : String :=
  if errCodeField err = JSValue.str "ENOENT" then
    "Could not find Elm compiler \"" ++ pathToElm ++ "\". Is it installed?"
  else if errCodeField err = JSValue.str "EACCES" then
    "Elm compiler \"" ++ pathToElm ++ "\" did not have permission to run. Do you need to give it executable permissions?"
  else if isStringValue (errCodeField err) then
    "Error attempting to run Elm compiler \"" ++ pathToElm ++ "\":\n" ++ errStringRep err
  else if isStringValue (errMessageField err) then
    jsonStringify (stringValueOf (errMessageField err))
  else
    "Exception thrown when attempting to run Elm compiler " ++ jsonStringify pathToElm

theorem applyDefaults_cons (dest : List (String × JSValue)) (p : String × JSValue)
    (rest : List (String × JSValue)) :
    applyDefaults dest (p :: rest) = applyDefaults (setDefault dest p.1 p.2) rest := rfl

theorem hasKey_false_jsLookup (d : List (String × JSValue)) (k : String)
    (h : hasKey d k = false) : jsLookup d k = JSValue.undef := by
  induction d with
  | nil => rfl
  | cons p rest ih =>
    by_cases hp : p.1 = k
    · simp [hasKey, hp] at h
    · simp only [hasKey, if_neg hp] at h
      simp only [jsLookup, if_neg hp]
      exact ih h

theorem jsLookup_append_of_found (d l : List (String × JSValue)) (k : String)
    (h : jsLookup d k ≠ JSValue.undef) : jsLookup (d ++ l) k = jsLookup d k := by
  induction d with
  | nil => exact absurd rfl h
  | cons p rest ih =>
    simp only [List.cons_append, jsLookup]
    by_cases hp : p.1 = k
    · rw [if_pos hp, if_pos hp]
    · rw [if_neg hp, if_neg hp]
      simp only [jsLookup, if_neg hp] at h
      exact ih h

theorem jsLookup_map_overwrite_ne (d : List (String × JSValue)) (kq : String) (vq : JSValue)
    (k : String) (hne : k ≠ kq) :
    jsLookup (d.map (fun p => if p.1 = kq then (kq, vq) else p)) k = jsLookup d k := by
  induction d with
  | nil => rfl
  | cons p rest ih =>
    simp only [List.map_cons]
    by_cases hp : p.1 = kq
    · rw [if_pos hp]
      have hq : kq ≠ k := Ne.symm hne
      have hpk : p.1 ≠ k := by rw [hp]; exact hq
      simp only [jsLookup, if_neg hq, if_neg hpk]
      exact ih
    · rw [if_neg hp]
      simp only [jsLookup]
      by_cases hk : p.1 = k
      · rw [if_pos hk, if_pos hk]
      · rw [if_neg hk, if_neg hk]
        exact ih

theorem jsLookup_map_overwrite_self (d : List (String × JSValue)) (k : String) (v : JSValue) :
    jsLookup (d.map (fun p => if p.1 = k then (k, v) else p)) k
      = if hasKey d k then v else JSValue.undef := by
  induction d with
  | nil => rfl
  | cons p rest ih =>
    by_cases hp : p.1 = k
    · simp [jsLookup, hasKey, hp]
    · simp [jsLookup, hasKey, hp, ih]

theorem jsLookup_setDefault_of_ne_undef (dest : List (String × JSValue)) (kq : String)
    (vq : JSValue) (k : String) (h : jsLookup dest k ≠ JSValue.undef) :
    jsLookup (setDefault dest kq vq) k = jsLookup dest k := by
  unfold setDefault
  split_ifs with h1 h2
  · by_cases hkk : k = kq
    · subst hkk; exact absurd h2 h
    · exact jsLookup_map_overwrite_ne dest kq vq k hkk
  · rfl
  · exact jsLookup_append_of_found dest [(kq, vq)] k h

theorem jsLookup_applyDefaults_of_ne_undef (src : List (String × JSValue)) :
    ∀ (dest : List (String × JSValue)) (k : String), jsLookup dest k ≠ JSValue.undef →
    jsLookup (applyDefaults dest src) k = jsLookup dest k := by
  induction src with
  | nil => intro dest k _; rfl
  | cons p rest ih =>
    intro dest k h
    rw [applyDefaults_cons]
    have hd := jsLookup_setDefault_of_ne_undef dest p.1 p.2 k h
    exact (ih _ k (fun he => h (hd.symm.trans he))).trans hd

theorem jsLookup_prepareOptions_spawn (options : List (String × JSValue)) (spawnFn : JSValue)
    (h : spawnFn ≠ JSValue.undef) :
    jsLookup (prepareOptions options spawnFn) "spawn" = spawnFn := by
  have h0 : jsLookup [("spawn", spawnFn)] "spawn" = spawnFn := by simp [jsLookup]
  have h1 : jsLookup (applyDefaults [("spawn", spawnFn)] options) "spawn" = spawnFn := by
    rw [jsLookup_applyDefaults_of_ne_undef options _ _ (by rw [h0]; exact h), h0]
  unfold prepareOptions
  rw [jsLookup_applyDefaults_of_ne_undef defaultOptions _ _ (by rw [h1]; exact h), h1]

theorem mem_setDefault_of_ne (dest : List (String × JSValue)) (kq : String) (vq : JSValue)
    (k : String) (v : JSValue) (hne : k ≠ kq) (hmem : (k, v) ∈ dest) :
    (k, v) ∈ setDefault dest kq vq := by
  unfold setDefault
  split_ifs with h1 h2
  · exact List.mem_map.mpr ⟨(k, v), hmem, by simp [hne]⟩
  · exact hmem
  · exact List.mem_append_left _ hmem

theorem hasKey_map_of_keys_eq (f : String × JSValue → String × JSValue)
    (hf : ∀ p, (f p).1 = p.1) (d : List (String × JSValue)) (k : String) :
    hasKey (d.map f) k = hasKey d k := by
  induction d with
  | nil => rfl
  | cons p rest ih =>
    simp only [List.map_cons, hasKey, hf p, ih]

theorem hasKey_append (a b : List (String × JSValue)) (k : String) :
    hasKey (a ++ b) k = (hasKey a k || hasKey b k) := by
  induction a with
  | nil => simp [hasKey]
  | cons p rest ih =>
    by_cases hp : p.1 = k <;> simp [hasKey, hp, ih]

theorem hasKey_setDefault_of_ne (dest : List (String × JSValue)) (kq : String) (vq : JSValue)
    (k : String) (hne : k ≠ kq) (h : hasKey dest k = false) :
    hasKey (setDefault dest kq vq) k = false := by
  unfold setDefault
  split_ifs with h1 h2
  · rw [hasKey_map_of_keys_eq _ (fun p => by by_cases hp : p.1 = kq <;> simp [hp]) dest k]
    exact h
  · exact h
  · rw [hasKey_append, h]
    simp only [hasKey, Bool.false_or]
    rw [if_neg (Ne.symm hne)]


theorem mem_applyDefaults_of_mem_dest (src : List (String × JSValue)) :
    ∀ (dest : List (String × JSValue)) (k : String) (v : JSValue),
    (∀ q ∈ src, q.1 ≠ k) → (k, v) ∈ dest → (k, v) ∈ applyDefaults dest src := by
  induction src with
  | nil => intro dest k v _ hmem; exact hmem
  | cons p rest ih =>
    intro dest k v hq hmem
    rw [applyDefaults_cons]
    exact ih _ k v (fun q hqr => hq q (List.mem_cons_of_mem _ hqr))
      (mem_setDefault_of_ne dest p.1 p.2 k v (Ne.symm (hq p (List.mem_cons_self _ _))) hmem)

theorem mem_applyDefaults_of_mem_src (src : List (String × JSValue)) :
    ∀ (dest : List (String × JSValue)) (k : String) (v : JSValue),
    (src.map Prod.fst).Nodup → (k, v) ∈ src → hasKey dest k = false →
    (k, v) ∈ applyDefaults dest src := by
  induction src with
  | nil => intro dest k v _ hmem _; cases hmem
  | cons p rest ih =>
    intro dest k v hnd hmem hdest
    simp only [List.map_cons, List.nodup_cons] at hnd
    rw [applyDefaults_cons]
    rcases List.mem_cons.mp hmem with heq | hmem'
    · subst heq
      have hin : (k, v) ∈ setDefault dest k v := by
        unfold setDefault
        rw [if_neg (by rw [hdest]; exact Bool.false_ne_true)]
        exact List.mem_append_right _ (List.mem_singleton.mpr rfl)
      refine mem_applyDefaults_of_mem_dest rest _ k v ?_ hin
      intro q hqr hqk
      exact hnd.1 (hqk ▸ List.mem_map.mpr ⟨q, hqr, rfl⟩)
    · have hk_in_rest : k ∈ rest.map Prod.fst := List.mem_map.mpr ⟨(k, v), hmem', rfl⟩
      have hpk : p.1 ≠ k := fun hpk => hnd.1 (hpk ▸ hk_in_rest)
      exact ih _ k v hnd.2 hmem' (hasKey_setDefault_of_ne dest p.1 p.2 k (Ne.symm hpk) hdest)

theorem mem_prepareOptions_of_unsupported (options : List (String × JSValue))
    (spawnFn : JSValue) (k : String) (v : JSValue)
    (hnd : (options.map Prod.fst).Nodup) (hmem : (k, v) ∈ options)
    (hk : k ∉ supportedOptions) : (k, v) ∈ prepareOptions options spawnFn := by
  have hspawnmem : "spawn" ∈ supportedOptions := by decide
  have hkspawn : k ≠ "spawn" := fun h => hk (h ▸ hspawnmem)
  have hdest : hasKey [("spawn", spawnFn)] k = false := by
    simp only [hasKey]
    rw [if_neg (Ne.symm hkspawn)]
  have h1 : (k, v) ∈ applyDefaults [("spawn", spawnFn)] options :=
    mem_applyDefaults_of_mem_src options _ k v hnd hmem hdest
  refine mem_applyDefaults_of_mem_dest defaultOptions _ k v ?_ h1
  intro q hq hqk
  exact hk (hqk ▸ List.mem_map.mpr ⟨q, hq, rfl⟩)

theorem compilerArgs_error_of_mem (opts : List (String × JSValue)) :
    ∀ (k : String) (v : JSValue) (e : Thrown), (k, v) ∈ opts →
    argsForOption k v = Except.error e →
    ∃ eq, compilerArgsFromOptions opts = Except.error eq := by
  induction opts with
  | nil => intro k v e hmem _; cases hmem
  | cons p rest ih =>
    intro k v e hmem herr
    rcases List.mem_cons.mp hmem with heq | hmem'
    · subst heq
      exact ⟨e, by simp [compilerArgsFromOptions, herr]⟩
    · cases ha : argsForOption p.1 p.2 with
      | error e1 => exact ⟨e1, by simp [compilerArgsFromOptions, ha]⟩
      | ok a =>
        obtain ⟨eq, he⟩ := ih k v e hmem' herr
        exact ⟨eq, by simp [compilerArgsFromOptions, ha, he]⟩

theorem argsForOption_falsy (k : String) (v : JSValue) (hv : truthy v = false) :
    argsForOption k v = Except.ok [] := by
  unfold argsForOption
  rw [if_neg (by rw [hv]; exact Bool.false_ne_true)]

theorem argsForOption_error_of_unsupported (k : String) (v : JSValue)
    (hk : k ∉ supportedOptions) (hv : truthy v = true) :
    argsForOption k v = Except.error (Thrown.errObj (rejectionMessage k)) := by
  have hhelp : k ≠ "help" := fun h => hk (h ▸ (by decide : "help" ∈ supportedOptions))
  have houtput : k ≠ "output" := fun h => hk (h ▸ (by decide : "output" ∈ supportedOptions))
  have hreport : k ≠ "report" := fun h => hk (h ▸ (by decide : "report" ∈ supportedOptions))
  have hdebug : k ≠ "debug" := fun h => hk (h ▸ (by decide : "debug" ∈ supportedOptions))
  have hdocs : k ≠ "docs" := fun h => hk (h ▸ (by decide : "docs" ∈ supportedOptions))
  have hoptimize : k ≠ "optimize" := fun h => hk (h ▸ (by decide : "optimize" ∈ supportedOptions))
  have hrts : k ≠ "runtimeOptions" :=
    fun h => hk (h ▸ (by decide : "runtimeOptions" ∈ supportedOptions))
  unfold argsForOption rejectionMessage
  rw [if_pos hv, if_neg hhelp, if_neg houtput, if_neg hreport, if_neg hdebug, if_neg hdocs,
    if_neg hoptimize, if_neg hrts, if_neg hk]
  split_ifs <;> rfl

theorem argsForOption_ok_of_benign (k : String) (v : JSValue)
    (h : k ∈ supportedOptions ∨ truthy v = false) :
    ∃ a, argsForOption k v = Except.ok a := by
  rcases h with hs | hv
  · unfold argsForOption
    split_ifs <;> first
      | exact absurd hs (by assumption)
      | exact ⟨_, rfl⟩
  · exact ⟨[], argsForOption_falsy k v hv⟩

theorem compilerArgs_ok_of_benign (opts : List (String × JSValue))
    (h : ∀ p ∈ opts, p.1 ∈ supportedOptions ∨ truthy p.2 = false) :
    ∃ args, compilerArgsFromOptions opts = Except.ok args := by
  induction opts with
  | nil => exact ⟨[], rfl⟩
  | cons p rest ih =>
    obtain ⟨a, ha⟩ := argsForOption_ok_of_benign p.1 p.2 (h p (List.mem_cons_self _ _))
    obtain ⟨as, has⟩ := ih (fun q hq => h q (List.mem_cons_of_mem _ hq))
    exact ⟨a ++ as, by simp [compilerArgsFromOptions, ha, has]⟩

theorem rtsBlock_of_mem (opts : List (String × JSValue)) :
    ∀ (ts : List String) (args : List String),
    ("runtimeOptions", JSValue.list ts) ∈ opts →
    compilerArgsFromOptions opts = Except.ok args →
    ∃ pre post, args = pre ++ ("+RTS" :: (ts ++ ("-RTS" :: post))) := by
  induction opts with
  | nil => intro ts args hmem _; cases hmem
  | cons p rest ih =>
    intro ts args hmem hargs
    rcases List.mem_cons.mp hmem with heq | hmem'
    · subst heq
      have hhead : argsForOption "runtimeOptions" (JSValue.list ts)
          = Except.ok ("+RTS" :: (ts ++ ["-RTS"])) := rfl
      cases hrest : compilerArgsFromOptions rest with
      | error e => simp [compilerArgsFromOptions, hhead, hrest] at hargs
      | ok restArgs =>
        have hs : args = ("+RTS" :: (ts ++ ["-RTS"])) ++ restArgs := by
          simp only [compilerArgsFromOptions, hhead, hrest] at hargs
          exact (Except.ok.injEq _ _ ▸ hargs).symm
        exact ⟨[], restArgs, by simp [hs]⟩
    · cases ha : argsForOption p.1 p.2 with
      | error e => simp [compilerArgsFromOptions, ha] at hargs
      | ok a =>
        cases hrest : compilerArgsFromOptions rest with
        | error e => simp [compilerArgsFromOptions, ha, hrest] at hargs
        | ok restArgs =>
          obtain ⟨pre, post, hpp⟩ := ih ts restArgs hmem' hrest
          have hs : args = a ++ restArgs := by
            simp only [compilerArgsFromOptions, ha, hrest] at hargs
            exact (Except.ok.injEq _ _ ▸ hargs).symm
          exact ⟨a ++ pre, post, by simp [hs, hpp]⟩

theorem prepareProcessArgs_error_left (sources : JSValue) (opts : List (String × JSValue))
    (e : Thrown) (h : prepareSources sources = Except.error e) :
    prepareProcessArgs sources opts = Except.error e := by
  simp [prepareProcessArgs, h]

theorem prepareProcessArgs_error_right (sources : JSValue) (opts : List (String × JSValue))
    (ss : List String) (e : Thrown) (h1 : prepareSources sources = Except.ok ss)
    (h2 : compilerArgsFromOptions opts = Except.error e) :
    prepareProcessArgs sources opts = Except.error e := by
  simp [prepareProcessArgs, h1, h2]

theorem prepareSources_error_of_invalid (sources : JSValue) (h : isValidSources sources = false) :
    prepareSources sources
      = Except.error (Thrown.strVal
          "compile() received neither an Array nor a String for its sources argument.") := by
  cases sources <;> first | rfl | (simp [isValidSources] at h)

theorem runCompiler_error_of_prepare_error (sources : JSValue)
    (opts : List (String × JSValue)) (po : ProcessedOptions) (e : Thrown)
    (hc : isCallable (jsLookup opts "spawn") = true)
    (h : prepareProcessArgs sources opts = Except.error e) :
    runCompiler sources opts po = Except.error e := by
  unfold runCompiler
  rw [hc, h]
  rfl

theorem compile_error_of_runCompiler_error (sources : JSValue)
    (options : List (String × JSValue)) (spawnFn : JSValue) (e : Thrown)
    (h : runCompiler sources (prepareOptions options spawnFn) (processOptions options)
      = Except.error e) :
    compile sources options spawnFn
      = Except.error (Thrown.errObj (compilerErrorToString (thrownToErr e)
          (processOptions options).pathToElm)) := by
  unfold compile
  rw [h]

theorem compile_error_of_prepare_error (sources : JSValue) (options : List (String × JSValue))
    (e : Thrown)
    (h : prepareProcessArgs sources (prepareOptions options JSValue.func) = Except.error e) :
    compile sources options JSValue.func
      = Except.error (Thrown.errObj (compilerErrorToString (thrownToErr e)
          (processOptions options).pathToElm)) := by
  refine compile_error_of_runCompiler_error sources options JSValue.func e ?_
  refine runCompiler_error_of_prepare_error sources _ _ e ?_ h
  rw [jsLookup_prepareOptions_spawn options JSValue.func (by simp)]
  rfl

theorem jsLookup_append_of_not_hasKey (o l : List (String × JSValue)) (k : String)
    (h : hasKey o k = false) : jsLookup (o ++ l) k = jsLookup l k := by
  induction o with
  | nil => rfl
  | cons p rest ih =>
    by_cases hp : p.1 = k
    · simp [hasKey, hp] at h
    · simp only [hasKey, if_neg hp] at h
      simp only [List.cons_append, jsLookup, if_neg hp]
      exact ih h

theorem jsLookup_append_single_ne (o : List (String × JSValue)) (k kq : String) (v : JSValue)
    (hne : kq ≠ k) : jsLookup (o ++ [(k, v)]) kq = jsLookup o kq := by
  induction o with
  | nil =>
    simp only [List.nil_append, jsLookup]
    rw [if_neg (Ne.symm hne)]
  | cons p rest ih =>
    simp only [List.cons_append, jsLookup]
    by_cases hp : p.1 = kq
    · rw [if_pos hp, if_pos hp]
    · rw [if_neg hp, if_neg hp]
      exact ih

theorem jsLookup_jsSet_self (o : List (String × JSValue)) (k : String) (v : JSValue) :
    jsLookup (jsSet o k v) k = v := by
  unfold jsSet
  split_ifs with h1
  · rw [jsLookup_map_overwrite_self, if_pos h1]
  · rw [jsLookup_append_of_not_hasKey o [(k, v)] k (by simpa using h1)]
    simp [jsLookup]

theorem jsLookup_jsSet_ne (o : List (String × JSValue)) (k kq : String) (v : JSValue)
    (hne : kq ≠ k) : jsLookup (jsSet o k v) kq = jsLookup o kq := by
  unfold jsSet
  split_ifs with h1
  · exact jsLookup_map_overwrite_ne o k v kq hne
  · exact jsLookup_append_single_ne o k kq v hne

/-- C1: for every valid `sources` value (a lone string is wrapped into a
one-element list, a list is kept as-is in original order) and every
configuration whose flag construction succeeds, `prepareProcessArgs` emits
`"make"` first, immediately followed by the normalized source list, with all
flag-derived tokens after the sources. -/
theorem claim_C1 :
    (∀ s : String, prepareSources (JSValue.str s) = Except.ok [s])
    ∧ (∀ xs : List String, prepareSources (JSValue.list xs) = Except.ok xs)
    ∧ (∀ (sources : JSValue) (opts : List (String × JSValue)) (ss args : List String),
        prepareSources sources = Except.ok ss →
        compilerArgsFromOptions opts = Except.ok args →
        prepareProcessArgs sources opts = Except.ok ("make" :: (ss ++ args))) :=
  ⟨fun _ => rfl, fun _ => rfl,
   fun _sources _opts _ss _args h1 h2 => by simp [prepareProcessArgs, h1, h2]⟩

/-- Witness for C1, reproducing the repository test
`make a.elm +RTS -A128M -H128M -n8m -RTS`. -/
theorem claim_C1_witness :
    prepareProcessArgs (JSValue.str "a.elm")
      [("verbose", JSValue.boolean true), ("cwd", JSValue.str "/fixtures"),
       ("runtimeOptions", JSValue.list ["-A128M", "-H128M", "-n8m"])]
      = Except.ok ["make", "a.elm", "+RTS", "-A128M", "-H128M", "-n8m", "-RTS"] :=
  claim_C1.2.2 (JSValue.str "a.elm") _ ["a.elm"]
    ["+RTS", "-A128M", "-H128M", "-n8m", "-RTS"] rfl rfl

/-- C2 counterexample: for the configuration `{runtimeOptions: ["-A128M"],
debug: true}` the built flag list is `["+RTS", "-A128M", "-RTS", "--debug"]`:
the flag token `--debug` comes after the bracketed block, so the block is not
after all other flag-derived tokens (it is not a suffix of the list). -/
theorem claim_C2_counterexample :
    compilerArgsFromOptions (prepareOptions
        [("runtimeOptions", JSValue.list ["-A128M"]), ("debug", JSValue.boolean true)]
        JSValue.func)
      = Except.ok ["+RTS", "-A128M", "-RTS", "--debug"]
    ∧ ¬ ∃ pre : List String,
        ["+RTS", "-A128M", "-RTS", "--debug"] = pre ++ ["+RTS", "-A128M", "-RTS"] := by
  refine ⟨rfl, ?_⟩
  rintro ⟨pre, hpre⟩
  have h1 : (["+RTS", "-A128M", "-RTS", "--debug"] : List String).getLast? = some "--debug" := rfl
  have h2 : (pre ++ ["+RTS", "-A128M", "-RTS"] : List String).getLast? = some "-RTS" := by
    rw [List.getLast?_append_of_ne_nil pre (by simp)]
    rfl
  rw [hpre, h2] at h1
  exact absurd (Option.some.inj h1) (by decide)

/-- C2 (amended): for every configuration whose `runtimeOptions` property is
a non-empty list of N tokens, a successfully built flag list contains the
contiguous block `+RTS`, the N tokens in original order, `-RTS`; the block
sits at the position of the `runtimeOptions` key in the configuration's key
iteration order, not necessarily after all other flag-derived tokens. -/
theorem claim_C2_amended (opts : List (String × JSValue)) (ts args : List String)
    (_hne : ts ≠ [])
    (hmem : ("runtimeOptions", JSValue.list ts) ∈ opts)
    (hargs : compilerArgsFromOptions opts = Except.ok args) :
    ∃ pre post, args = pre ++ ("+RTS" :: (ts ++ ("-RTS" :: post))) :=
  rtsBlock_of_mem opts ts args hmem hargs

/-- Witness for the amended C2 at the counterexample's configuration. -/
theorem claim_C2_witness :
    ∃ pre post, ["+RTS", "-A128M", "-RTS", "--debug"]
      = pre ++ ("+RTS" :: (["-A128M"] ++ ("-RTS" :: post))) :=
  claim_C2_amended
    (prepareOptions [("runtimeOptions", JSValue.list ["-A128M"]), ("debug", JSValue.boolean true)]
      JSValue.func)
    ["-A128M"] ["+RTS", "-A128M", "-RTS", "--debug"]
    (by decide) (by decide) rfl

/-- C3 counterexample: the configuration `{foo: false}` contains the key
`foo`, which is outside the recognized option set, yet building the argument
list raises no error at all — the key is silently ignored, contradicting the
claim that rejection happens for every unrecognized key. -/
theorem claim_C3_counterexample :
    compilerArgsFromOptions (prepareOptions [("foo", JSValue.boolean false)] JSValue.func)
      = Except.ok []
    ∧ ¬ ∃ e, compilerArgsFromOptions (prepareOptions [("foo", JSValue.boolean false)] JSValue.func)
        = Except.error e := by
  refine ⟨rfl, ?_⟩
  rintro ⟨e, he⟩
  rw [show compilerArgsFromOptions (prepareOptions [("foo", JSValue.boolean false)] JSValue.func)
      = Except.ok [] from rfl] at he
  cases he

/-- C3 (amended): for every configuration containing a key outside the
recognized option set *bound to a truthy value*, building the argument list
raises an error; the per-key rejection is the name-specific legacy message
for `yes`, `warn` and `pathToMake` (three pairwise distinct messages carrying
migration hints) and the unrecognized-option message naming the key
otherwise.  Unrecognized keys bound to falsy values are ignored. -/
theorem claim_C3_amended :
    (∀ (opts : List (String × JSValue)) (k : String) (v : JSValue),
        (k, v) ∈ opts → k ∉ supportedOptions → truthy v = true →
        ∃ e, compilerArgsFromOptions opts = Except.error e)
    ∧ (∀ (k : String) (v : JSValue), k ∉ supportedOptions → truthy v = true →
        argsForOption k v = Except.error (Thrown.errObj (rejectionMessage k)))
    ∧ rejectionMessage "yes" = yesOptionMessage
    ∧ rejectionMessage "warn" = warnOptionMessage
    ∧ rejectionMessage "pathToMake" = pathToMakeOptionMessage
    ∧ (∀ k : String, k ≠ "yes" → k ≠ "warn" → k ≠ "pathToMake" →
        rejectionMessage k = unrecognizedOptionMessage k)
    ∧ yesOptionMessage ≠ warnOptionMessage
    ∧ yesOptionMessage ≠ pathToMakeOptionMessage
    ∧ warnOptionMessage ≠ pathToMakeOptionMessage := by
  refine ⟨?_, ?_, rfl, rfl, rfl, ?_, by decide, by decide, by decide⟩
  · intro opts k v hmem hk hv
    exact compilerArgs_error_of_mem opts k v _ hmem
      (argsForOption_error_of_unsupported k v hk hv)
  · exact argsForOption_error_of_unsupported
  · intro k hy hw hp
    simp [rejectionMessage, hy, hw, hp]

/-- Witness for the amended C3 at the configuration `{foo: "bar"}` and at the
legacy key `yes`. -/
theorem claim_C3_witness :
    (∃ e, compilerArgsFromOptions [("foo", JSValue.str "bar")] = Except.error e)
    ∧ argsForOption "yes" (JSValue.boolean true)
        = Except.error (Thrown.errObj (rejectionMessage "yes")) := by
  refine ⟨?_, ?_⟩
  · exact claim_C3_amended.1 [("foo", JSValue.str "bar")] "foo" (JSValue.str "bar")
      (by decide) (by decide) rfl
  · exact claim_C3_amended.2.1 "yes" (JSValue.boolean true) (by decide) rfl

/-- C6: the error classifier is a pure total mapping agreeing, on every error
value and compiler path, with the specification's case analysis: `ENOENT`
code yields the could-not-find-is-it-installed message, `EACCES` the
missing-execute-permission message, any other string code the
error-attempting-to-run message embedding path and error, no string code but
a string `message` field the JSON-stringified message, and anything else the
generic exception message embedding the path. -/
theorem claim_C6 (err : JSErrValue) (pathToElm : String) :
    compilerErrorToString err pathToElm = classifierSpec err pathToElm := by
  cases err with
  | primitive r =>
    simp [compilerErrorToString, classifierSpec, errCodeField, errMessageField, isStringValue]
  | objE code message strRep =>
    cases code <;> cases message <;>
      simp [compilerErrorToString, classifierSpec, errCodeField, errMessageField,
        isStringValue, errStringRep, stringValueOf]

/-- C9: an unrecognized key bound to a falsy value produces no tokens and no
error — `argsForOption` yields `[]` for every falsy value — and a whole
configuration whose unrecognized keys are all falsy builds successfully. -/
theorem claim_C9 :
    (∀ (k : String) (v : JSValue), truthy v = false → argsForOption k v = Except.ok [])
    ∧ (∀ opts : List (String × JSValue),
        (∀ p ∈ opts, p.1 ∉ supportedOptions → truthy p.2 = false) →
        ∃ args, compilerArgsFromOptions opts = Except.ok args) := by
  refine ⟨argsForOption_falsy, ?_⟩
  intro opts h
  refine compilerArgs_ok_of_benign opts ?_
  intro p hp
  by_cases hs : p.1 ∈ supportedOptions
  · exact Or.inl hs
  · exact Or.inr (h p hp hs)

/-- Witness for C9: `{foo: false}`-style keys are ignored and a mixed
configuration with a falsy unrecognized key still builds. -/
theorem claim_C9_witness :
    argsForOption "foo" (JSValue.boolean false) = Except.ok []
    ∧ ∃ args, compilerArgsFromOptions
        [("foo", JSValue.undef), ("debug", JSValue.boolean true)] = Except.ok args :=
  ⟨claim_C9.1 "foo" (JSValue.boolean false) rfl,
   claim_C9.2 [("foo", JSValue.undef), ("debug", JSValue.boolean true)] (by decide)⟩

/-- C10: `compileToString` leaves the caller's options object with `output`
overwritten to the temporary file path and `processOpts` overwritten to the
piped-stdio object, whatever the run's outcome; `compileToStringSync`
likewise leaves the caller's `output` set to the temporary file path. -/
theorem claim_C10 (sources : JSValue) (options : List (String × JSValue))
    (tempPath : String) (run : ProcRun) :
    jsLookup (compileToString sources options tempPath run).2 "output" = JSValue.str tempPath
    ∧ jsLookup (compileToString sources options tempPath run).2 "processOpts" = pipedProcessOpts
    ∧ jsLookup (compileToStringSync sources options tempPath run).2 "output"
        = JSValue.str tempPath := by
  have hsnd : (compileToString sources options tempPath run).2
      = jsSet (jsSet options "output" (JSValue.str tempPath)) "processOpts" pipedProcessOpts := rfl
  have hsnd2 : (compileToStringSync sources options tempPath run).2
      = jsSet options "output" (JSValue.str tempPath) := rfl
  refine ⟨?_, ?_, ?_⟩
  · rw [hsnd, jsLookup_jsSet_ne _ _ _ _ (by decide), jsLookup_jsSet_self]
  · rw [hsnd, jsLookup_jsSet_self]
  · rw [hsnd2, jsLookup_jsSet_self]

/-- C4: on every `compileToString` run in which the compiler process was
spawned, a non-zero exit code rejects with the compilation-failed error whose
diagnostic text carries the concatenation of all stdout/stderr chunks in
arrival order, and a zero exit code resolves with the full text of the
temporary output file. -/
theorem claim_C4 (sources : JSValue) (options : List (String × JSValue))
    (tempPath : String) (run : ProcRun) (child : SpawnCall)
    (hcompile : compile sources
        (jsSet (jsSet options "output" (JSValue.str tempPath)) "processOpts" pipedProcessOpts)
        JSValue.func = Except.ok child) :
    (run.exitCode ≠ 0 →
      (compileToString sources options tempPath run).1
        = Except.error (Thrown.errObj ("Compilation failed\n" ++ String.join run.chunks)))
    ∧ (run.exitCode = 0 →
      (compileToString sources options tempPath run).1 = Except.ok run.tempContents) := by
  constructor
  · intro h
    simp only [compileToString, hcompile]
    rw [if_pos h]
  · intro h
    simp only [compileToString, hcompile]
    rw [if_neg (by simp [h])]

/-- Witness for C4 at a failing run (exit 1, two chunks) and a succeeding run
(exit 0). -/
theorem claim_C4_witness :
    ((1 : Int) ≠ 0)
    ∧ (compileToString (JSValue.str "Main.elm") [] "/tmp/out.js"
        { exitCode := 1, chunks := ["boom", "!"], tempContents := "" }).1
        = Except.error (Thrown.errObj ("Compilation failed\n" ++ String.join ["boom", "!"]))
    ∧ (compileToString (JSValue.str "Main.elm") [] "/tmp/out.js"
        { exitCode := 0, chunks := [], tempContents := "compiled" }).1
        = Except.ok "compiled" := by
  refine ⟨by decide, ?_, ?_⟩
  · exact (claim_C4 (JSValue.str "Main.elm") [] "/tmp/out.js"
      { exitCode := 1, chunks := ["boom", "!"], tempContents := "" }
      { path := "elm", args := ["make", "Main.elm", "--output", "/tmp/out.js"] } rfl).1
      (by decide)
  · exact (claim_C4 (JSValue.str "Main.elm") [] "/tmp/out.js"
      { exitCode := 0, chunks := [], tempContents := "compiled" }
      { path := "elm", args := ["make", "Main.elm", "--output", "/tmp/out.js"] } rfl).2 rfl

/-- C5 counterexample: a `compileToStringSync` run whose process exited with
code 1 does not fail — it still returns the temporary file's text, so the
temp file's text is not returned "only when the process exited with code
zero" and no compilation-failed error is raised. -/
theorem claim_C5_counterexample :
    ((1 : Int) ≠ 0)
    ∧ (compileToStringSync (JSValue.str "Main.elm") [] "/tmp/out.js"
        { exitCode := 1, chunks := [], tempContents := "stale contents" }).1
        = Except.ok "stale contents" :=
  ⟨by decide, rfl⟩

/-- C5 (amended): `compileToStringSync` never consults the exit code: on
every run in which argument building succeeds it returns the temporary
file's text, whatever the process exit code, and raises no
compilation-failed error. -/
theorem claim_C5_amended (sources : JSValue) (options : List (String × JSValue))
    (tempPath : String) (run : ProcRun) (child : SpawnCall)
    (h : compileSync sources (jsSet options "output" (JSValue.str tempPath))
      = Except.ok child) :
    (compileToStringSync sources options tempPath run).1 = Except.ok run.tempContents := by
  simp only [compileToStringSync, h]

/-- Witness for the amended C5 at a run with exit code 1. -/
theorem claim_C5_witness :
    (compileToStringSync (JSValue.str "Main.elm") [] "/tmp/out.js"
      { exitCode := 1, chunks := [], tempContents := "file text" }).1
      = Except.ok "file text" :=
  claim_C5_amended (JSValue.str "Main.elm") [] "/tmp/out.js"
    { exitCode := 1, chunks := [], tempContents := "file text" }
    { path := "elm", args := ["make", "Main.elm", "--output", "/tmp/out.js"] } rfl

/-- C7: with the real (function-valued) spawn binding, an invalid `sources`
value (neither string nor array) or a truthy unrecognized configuration key
makes `compile` (and hence `compileSync`, which shares the body) throw
synchronously: the result is an error, so no `SpawnCall` is produced — the
bound spawn function is never invoked. -/
theorem claim_C7 :
    (∀ (sources : JSValue) (options : List (String × JSValue)),
        isValidSources sources = false →
        ∃ e, compile sources options JSValue.func = Except.error e)
    ∧ (∀ (sources : JSValue) (options : List (String × JSValue)) (k : String) (v : JSValue),
        (options.map Prod.fst).Nodup → (k, v) ∈ options → k ∉ supportedOptions →
        truthy v = true →
        ∃ e, compile sources options JSValue.func = Except.error e) := by
  constructor
  · intro sources options h
    exact ⟨_, compile_error_of_prepare_error sources options _
      (prepareProcessArgs_error_left sources _ _ (prepareSources_error_of_invalid sources h))⟩
  · intro sources options k v hnd hmem hk hv
    have hmem' : (k, v) ∈ prepareOptions options JSValue.func :=
      mem_prepareOptions_of_unsupported options JSValue.func k v hnd hmem hk
    obtain ⟨e, he⟩ := compilerArgs_error_of_mem _ k v _ hmem'
      (argsForOption_error_of_unsupported k v hk hv)
    cases hs : prepareSources sources with
    | error e0 =>
      exact ⟨_, compile_error_of_prepare_error sources options e0
        (prepareProcessArgs_error_left sources _ e0 hs)⟩
    | ok ss =>
      exact ⟨_, compile_error_of_prepare_error sources options e
        (prepareProcessArgs_error_right sources _ ss e hs he)⟩

/-- Witness for C7: a boolean `sources` value and the unrecognized truthy key
`foo` both make `compile` error out without spawning. -/
theorem claim_C7_witness :
    isValidSources (JSValue.boolean true) = false
    ∧ (∃ e, compile (JSValue.boolean true) [] JSValue.func = Except.error e)
    ∧ (∃ e, compile (JSValue.str "Main.elm") [("foo", JSValue.str "bar")] JSValue.func
        = Except.error e) := by
  refine ⟨rfl, claim_C7.1 (JSValue.boolean true) [] rfl, ?_⟩
  exact claim_C7.2 (JSValue.str "Main.elm") [("foo", JSValue.str "bar")] "foo"
    (JSValue.str "bar") (by decide) (by decide) (by decide) rfl

/-- C8 counterexample: when the bound spawn value is not callable (modelled
by binding the number 1), `runCompiler` does fail before spawning with the
spawn-invocation error (a thrown string), but the error surfaced to the
caller of `compile` is a different one: a fresh `Error` whose message is the
classifier's generic exception text, with no mention of the spawn
problem. -/
theorem claim_C8_counterexample :
    runCompiler (JSValue.str "Main.elm") (prepareOptions [] (JSValue.num 1)) (processOptions [])
      = Except.error (Thrown.strVal "options.spawn was a(n) number instead of a function.")
    ∧ compile (JSValue.str "Main.elm") [] (JSValue.num 1)
      = Except.error
          (Thrown.errObj "Exception thrown when attempting to run Elm compiler \"elm\"")
    ∧ Thrown.errObj "Exception thrown when attempting to run Elm compiler \"elm\""
      ≠ Thrown.strVal "options.spawn was a(n) number instead of a function." :=
  ⟨rfl, rfl, by decide⟩

/-- C8 (amended): whenever the spawn field of the prepared options is not
callable, `runCompiler` fails before attempting to spawn with the thrown
string naming the actual type of the spawn field; `compile`/`compileSync`
catch that string and surface instead a fresh `Error` carrying the
classifier's generic exception message embedding the compiler path — the
spawn-specific error itself is not what reaches the caller. -/
theorem claim_C8_amended (sources : JSValue) (options : List (String × JSValue))
    (spawnFn : JSValue) (po : ProcessedOptions)
    (h : isCallable (jsLookup (prepareOptions options spawnFn) "spawn") = false) :
    runCompiler sources (prepareOptions options spawnFn) po
      = Except.error (Thrown.strVal ("options.spawn was a(n) "
          ++ typeofJS (jsLookup (prepareOptions options spawnFn) "spawn")
          ++ " instead of a function."))
    ∧ compile sources options spawnFn
      = Except.error (Thrown.errObj ("Exception thrown when attempting to run Elm compiler "
          ++ jsonStringify (processOptions options).pathToElm)) := by
  have hrc : ∀ po' : ProcessedOptions,
      runCompiler sources (prepareOptions options spawnFn) po'
        = Except.error (Thrown.strVal ("options.spawn was a(n) "
            ++ typeofJS (jsLookup (prepareOptions options spawnFn) "spawn")
            ++ " instead of a function.")) := by
    intro po'
    unfold runCompiler
    rw [if_neg (by rw [h]; exact Bool.false_ne_true)]
  exact ⟨hrc po,
    compile_error_of_runCompiler_error sources options spawnFn _ (hrc (processOptions options))⟩

/-- Witness for the amended C8 with the number 1 bound as the spawn value. -/
theorem claim_C8_witness :
    isCallable (jsLookup (prepareOptions [] (JSValue.num 1)) "spawn") = false
    ∧ runCompiler (JSValue.str "a.elm") (prepareOptions [] (JSValue.num 1)) (processOptions [])
        = Except.error (Thrown.strVal ("options.spawn was a(n) "
            ++ typeofJS (jsLookup (prepareOptions [] (JSValue.num 1)) "spawn")
            ++ " instead of a function."))
    ∧ compile (JSValue.str "a.elm") [] (JSValue.num 1)
        = Except.error (Thrown.errObj ("Exception thrown when attempting to run Elm compiler "
            ++ jsonStringify (processOptions ([] : List (String × JSValue))).pathToElm)) :=
  ⟨rfl,
   (claim_C8_amended (JSValue.str "a.elm") [] (JSValue.num 1) (processOptions []) rfl).1,
   (claim_C8_amended (JSValue.str "a.elm") [] (JSValue.num 1) (processOptions []) rfl).2⟩

end NodeElmCompiler
